import Mathlib

/-!
# Verification of the rtd static route/rule daemon

A shallow embedding of `src/main.rs`: the definition-language parser
(`Route`/`Rule` `FromStr` implementations), the `Display` re-serializers,
and the delete-then-add reconciliation loop in `run`.  Strings are Lean
`String`s; the tokenizer and CIDR splitting operate on the underlying
character lists via an explicit splitter mirroring Rust `str::split` /
`str::split_whitespace` / `str::lines`.
-/

namespace Rtd

/-- Split a character list at every character satisfying `p`, keeping empty
pieces, exactly like Rust `str::split`.  Always returns at least one piece. -/
def splitOnPred (p : Char → Bool) : List Char → List (List Char)
  | [] => [[]]
  | c :: cs =>
    let rest := splitOnPred p cs
    if p c then [] :: rest
    else (c :: rest.headI) :: rest.tail

theorem splitOnPred_ne_nil (p : Char → Bool) (l : List Char) :
    splitOnPred p l ≠ [] := by
  cases l with
  | nil => simp [splitOnPred]
  | cons c cs =>
    simp only [splitOnPred]
    split
    · simp
    · simp

/-- The number of pieces is one more than the number of split characters. -/
theorem length_splitOnPred (p : Char → Bool) (l : List Char) :
    (splitOnPred p l).length = l.countP p + 1 := by
  induction l with
  | nil => simp [splitOnPred]
  | cons c cs ih =>
    simp only [splitOnPred, List.countP_cons]
    split
    next h => simp [List.length_cons, ih, h]
    next h =>
      have hne := splitOnPred_ne_nil p cs
      cases hsp : splitOnPred p cs with
      | nil => exact absurd hsp hne
      | cons x xs =>
        simp only [hsp, List.headI, List.tail, List.length_cons] at ih ⊢
        simp [h, ih]

/-- Rust `str::split(sep)` on a `String`. -/
def splitChar (sep : Char) (s : String) : List String :=
  (splitOnPred (· = sep) s.data).map String.mk

/-- Rust `str::split_whitespace`: split on whitespace, dropping empty pieces. -/
def tokenize (s : String) : List String :=
  ((splitOnPred Char.isWhitespace s.data).filter (· ≠ [])).map String.mk

/-- Rust `str::lines`: split on newline, dropping one trailing empty piece
and a trailing carriage return on each line. -/
def rustLines (s : String) : List String :=
  let parts := splitOnPred (· = '\n') s.data
  let parts := if parts.getLast? = some [] then parts.dropLast else parts
  parts.map (fun l => String.mk (if l.getLast? = some '\r' then l.dropLast else l))

/-- Numeric value of a decimal digit list (assumes digits only). -/
def decVal (cs : List Char) : Nat :=
  cs.foldl (fun n c => n * 10 + (c.toNat - 48)) 0

/-- Rust `u8`/`u32::from_str` model: optional leading `+`, one or more
decimal digits, value below the type bound. -/
def parseNum (bound : Nat) (s : String) : Option Nat :=
  let cs := if s.data.headI = '+' ∧ s.data ≠ [] then s.data.tail else s.data
  if cs ≠ [] ∧ cs.all Char.isDigit ∧ decVal cs < bound then
    some (decVal cs)
  else none

/-- Rust `bool::from_str`: exactly `true` or `false`. -/
def parseBoolStr (s : String) : Option Bool :=
  if s = "true" then some true
  else if s = "false" then some false
  else none

/-- One IPv4 address, mirroring `std::net::Ipv4Addr` (four octets). -/
structure Ipv4Addr where
  a : Nat
  b : Nat
  c : Nat
  d : Nat
deriving DecidableEq, Repr

/-- One IPv6 address, mirroring `std::net::Ipv6Addr` (eight 16-bit groups). -/
structure Ipv6Addr where
  g1 : Nat
  g2 : Nat
  g3 : Nat
  g4 : Nat
  g5 : Nat
  g6 : Nat
  g7 : Nat
  g8 : Nat
deriving DecidableEq, Repr

/-- `std::net::IpAddr`. -/
inductive IpAddr where
  | V4 (addr : Ipv4Addr)
  | V6 (addr : Ipv6Addr)
deriving DecidableEq, Repr

def IpAddr.isV4 : IpAddr → Bool
  | .V4 _ => true
  | .V6 _ => false

def IpAddr.isV6 : IpAddr → Bool
  | .V4 _ => false
  | .V6 _ => true

/-- Modelled from the spec: one decimal IPv4 octet, as accepted by the
external standard-library address parser (digits only, no leading zeros,
at most three digits, value at most 255). -/
def parseOctet (cs : List Char) : Option Nat :=
  if cs ≠ [] ∧ cs.all Char.isDigit ∧ (cs.length = 1 ∨ cs.headI ≠ '0') ∧
      cs.length ≤ 3 ∧ decVal cs ≤ 255 then
    some (decVal cs)
  else none

/-- Modelled from the spec: dotted-quad IPv4 parsing by the external
standard-library parser ("address parsed per IP family"). -/
def parseIpv4 (s : String) : Option Ipv4Addr :=
  match (splitOnPred (· = '.') s.data).map parseOctet with
  | [some a, some b, some c, some d] => some ⟨a, b, c, d⟩
  | _ => none

def isHexDigitChar (c : Char) : Bool :=
  c.isDigit ∨ ('a' ≤ c ∧ c ≤ 'f') ∨ ('A' ≤ c ∧ c ≤ 'F')

def hexDigitVal (c : Char) : Nat :=
  if c.isDigit then c.toNat - 48
  else if 'a' ≤ c ∧ c ≤ 'f' then c.toNat - 87
  else c.toNat - 55

def hexVal (cs : List Char) : Nat :=
  cs.foldl (fun n c => n * 16 + hexDigitVal c) 0

/-- Modelled from the spec: one 16-bit hexadecimal IPv6 group. -/
def parseHexGroup (cs : List Char) : Option Nat :=
  if cs ≠ [] ∧ cs.length ≤ 4 ∧ cs.all isHexDigitChar then some (hexVal cs)
  else none

/-- Find the first `::` in a character list, returning the text before and
after it. -/
def findDoubleColon : List Char → Option (List Char × List Char)
  | [] => none
  | c :: cs =>
    if c = ':' ∧ cs.headI = ':' ∧ cs ≠ [] then
      some ([], cs.tail)
    else
      (findDoubleColon cs).map (fun pr => (c :: pr.1, pr.2))

/-- Hex groups of one side of an IPv6 address (empty side means no groups). -/
def groupsOf (cs : List Char) : Option (List Nat) :=
  if cs = [] then some []
  else (splitOnPred (· = ':') cs).mapM parseHexGroup

def mk8 : List Nat → Option Ipv6Addr
  | [a, b, c, d, e, f, g, h] => some ⟨a, b, c, d, e, f, g, h⟩
  | _ => none

/-- Modelled from the spec: IPv6 parsing by the external standard-library
parser — colon-separated 16-bit hex groups with at most one `::` elision
(IPv4-embedded forms omitted). -/
def parseIpv6 (s : String) : Option Ipv6Addr :=
  match findDoubleColon s.data with
  | some (l, r) =>
    match findDoubleColon r with
    | some _ => none
    | none =>
      match groupsOf l, groupsOf r with
      | some gl, some gr =>
        if gl.length + gr.length ≤ 7 then
          mk8 (gl ++ List.replicate (8 - gl.length - gr.length) 0 ++ gr)
        else none
      | _, _ => none
  | none =>
    match groupsOf s.data with
    | some g => if g.length = 8 then mk8 g else none
    | none => none

/-- Modelled from the spec: `IpAddr::from_str` tries IPv4 first, then IPv6. -/
def parseIp (s : String) : Option IpAddr :=
  match parseIpv4 s with
  | some a => some (.V4 a)
  | none => (parseIpv6 s).map .V6

/-- `enum RouteParseError` from `src/main.rs` (payloads of the wrapped
standard-library errors are opaque and dropped). -/
inductive RouteParseError where
  | DstNotIpv4
  | DstNotIpv6
  | DuplicateAttr (a : String)
  | InvalidAttr (a : String)
  | InvalidCidr (c : String)
  | InvalidCmd (c : String)
  | InvalidVersion (v : String)
  | NoAttrValue (a : String)
  | NoCmd
  | NoDst
  | NoLink
  | NoVersion
  | ParseAddr
  | ParseBool
  | ParseInt
  | RtrNotIpv4
  | RtrNotIpv6
deriving DecidableEq, Repr

/-- `enum RouteVersion`. -/
inductive RouteVersion where
  | Ipv4
  | Ipv6
deriving DecidableEq, Repr

/-- `rsdsl_netlinklib::route::Route4`. -/
structure Route4 where
  dst : Ipv4Addr
  prefix_len : Nat
  rtr : Option Ipv4Addr
  on_link : Bool
  table : Option Nat
  metric : Option Nat
  link : String
deriving DecidableEq, Repr

/-- `rsdsl_netlinklib::route::Route6`. -/
structure Route6 where
  dst : Ipv6Addr
  prefix_len : Nat
  rtr : Option Ipv6Addr
  on_link : Bool
  table : Option Nat
  metric : Option Nat
  link : String
deriving DecidableEq, Repr

/-- `enum RouteDef`. -/
inductive RouteDef where
  | V4 (r : Route4)
  | V6 (r : Route6)
deriving DecidableEq, Repr

/-- `RouteDef::link`. -/
def RouteDef.link : RouteDef → String
  | .V4 r => r.link
  | .V6 r => r.link

/-- `struct Route` (the `def` field is named `rdef`, `def` being reserved). -/
structure Route where
  delete : Bool
  rdef : RouteDef
deriving DecidableEq, Repr

/-- The local variables collected by the attribute loop of
`<Route as FromStr>::from_str`. -/
structure RouteAttrs where
  dst : Option IpAddr := none
  prefix_len : Option Nat := none
  rtr : Option IpAddr := none
  on_link : Bool := false
  table : Option Nat := none
  metric : Option Nat := none
  link : Option String := none
deriving DecidableEq, Repr

/-- The attribute-pair collection shared by both parsers: words are consumed
in `key value` pairs; a repeated key is a duplicate-attribute error and a
trailing key with no value is a missing-value error.  (The source stores the
pairs in a `HashMap` and later iterates it; here the map is an ordered
association list, iterated in insertion order.) -/
def collectPairs {ε : Type} (dupE noValE : String → ε) :
    List String → List (String × String) → Except ε (List (String × String))
  | [], acc => .ok acc
  | [k], _ => .error (noValE k)
  | k :: v :: rest, acc =>
    if acc.any (fun p => p.1 = k) then .error (dupE k)
    else collectPairs dupE noValE rest (acc ++ [(k, v)])

/-- One iteration of the attribute loop of `<Route as FromStr>::from_str`. -/
def routeApplyAttr (st : RouteAttrs) (kv : String × String) :
    Except RouteParseError RouteAttrs :=
  match kv.1 with
  | "to" =>
    match splitChar '/' kv.2 with
    | [a, c] =>
      match parseIp a with
      | none => .error .ParseAddr
      | some addr =>
        match parseNum 256 c with
        | none => .error .ParseInt
        | some n => .ok { st with dst := some addr, prefix_len := some n }
    | _ => .error (.InvalidCidr kv.2)
  | "via" =>
    match parseIp kv.2 with
    | none => .error .ParseAddr
    | some g => .ok { st with rtr := some g }
  | "onlink" =>
    match parseBoolStr kv.2 with
    | none => .error .ParseBool
    | some b => .ok { st with on_link := b }
  | "table" =>
    match parseNum (2 ^ 32) kv.2 with
    | none => .error .ParseInt
    | some t => .ok { st with table := some t }
  | "metric" =>
    match parseNum (2 ^ 32) kv.2 with
    | none => .error .ParseInt
    | some m => .ok { st with metric := some m }
  | "dev" => .ok { st with link := some kv.2 }
  | _ => .error (.InvalidAttr kv.1)

/-- The final construction step of `<Route as FromStr>::from_str`: the
`match version` expression, with struct fields evaluated in source order
(`dst`, `prefix_len`, `rtr`, `on_link`, `table`, `metric`, `link`). -/
def buildRoute (version : RouteVersion) (delete : Bool) (st : RouteAttrs) :
    Except RouteParseError Route :=
  match version with
  | .Ipv4 =>
    match st.dst with
    | some (.V4 d) =>
      match st.prefix_len with
      | none => .error .NoDst
      | some pl =>
        match st.rtr with
        | some (.V4 g) =>
          match st.link with
          | none => .error .NoLink
          | some lk => .ok ⟨delete, .V4 ⟨d, pl, some g, st.on_link, st.table, st.metric, lk⟩⟩
        | some (.V6 _) => .error .RtrNotIpv4
        | none =>
          match st.link with
          | none => .error .NoLink
          | some lk => .ok ⟨delete, .V4 ⟨d, pl, none, st.on_link, st.table, st.metric, lk⟩⟩
    | _ => .error .DstNotIpv4
  | .Ipv6 =>
    match st.dst with
    | some (.V6 d) =>
      match st.prefix_len with
      | none => .error .NoDst
      | some pl =>
        match st.rtr with
        | some (.V6 g) =>
          match st.link with
          | none => .error .NoLink
          | some lk => .ok ⟨delete, .V6 ⟨d, pl, some g, st.on_link, st.table, st.metric, lk⟩⟩
        | some (.V4 _) => .error .RtrNotIpv6
        | none =>
          match st.link with
          | none => .error .NoLink
          | some lk => .ok ⟨delete, .V6 ⟨d, pl, none, st.on_link, st.table, st.metric, lk⟩⟩
    | _ => .error .DstNotIpv6

/-- `"route4"` / `"route6"` version keywords. -/
def routeVersionOf (s : String) : Option RouteVersion :=
  if s = "route4" then some .Ipv4
  else if s = "route6" then some .Ipv6
  else none

/-- `"add"` / `"del"` command keywords, returning the delete flag. -/
def cmdOf (s : String) : Option Bool :=
  if s = "add" then some false
  else if s = "del" then some true
  else none

/-- `<Route as FromStr>::from_str`, after `split_whitespace`. -/
def Route.from_words : List String → Except RouteParseError Route
  | [] => .error .NoVersion
  | vstr :: rest =>
    match routeVersionOf vstr with
    | none => .error (.InvalidVersion vstr)
    | some v =>
      match rest with
      | [] => .error .NoCmd
      | cmd :: rest2 =>
        match cmdOf cmd with
        | none => .error (.InvalidCmd cmd)
        | some delete =>
          match collectPairs RouteParseError.DuplicateAttr RouteParseError.NoAttrValue rest2 [] with
          | .error e => .error e
          | .ok pairs =>
            match pairs.foldlM routeApplyAttr {} with
            | .error e => .error e
            | .ok st => buildRoute v delete st

/-- `<Route as FromStr>::from_str`. -/
def Route.from_str (s : String) : Except RouteParseError Route :=
  Route.from_words (tokenize s)

/-- `struct Routes`. -/
structure Routes where
  routes : List Route
deriving DecidableEq, Repr

/-- `Iterator::collect::<Result<Vec<_>, _>>`: first error wins. -/
def collectResults {ε α β : Type} (f : α → Except ε β) : List α → Except ε (List β)
  | [] => .ok []
  | x :: xs =>
    match f x with
    | .error e => .error e
    | .ok y =>
      match collectResults f xs with
      | .error e => .error e
      | .ok ys => .ok (y :: ys)

/-- If collecting succeeded, every element parsed successfully. -/
theorem collectResults_ok_forall {ε α β : Type} (f : α → Except ε β)
    (l : List α) (ys : List β) (h : collectResults f l = .ok ys) :
    ∀ x ∈ l, ∃ y, f x = .ok y := by
  induction l generalizing ys with
  | nil => intro x hx; cases hx
  | cons a as ih =>
    intro x hx
    simp only [collectResults] at h
    cases hfa : f a with
    | error e => rw [hfa] at h; cases h
    | ok y =>
      rw [hfa] at h
      cases hrest : collectResults f as with
      | error e => rw [hrest] at h; cases h
      | ok zs =>
        rw [hrest] at h
        cases hx with
        | head => exact ⟨y, hfa⟩
        | tail _ hmem => exact ih zs hrest x hmem

/-- `<Routes as FromStr>::from_str`: parse every line, first error wins. -/
def Routes.from_str (s : String) : Except RouteParseError Routes :=
  (collectResults Route.from_str (rustLines s)).map Routes.mk

/-- `enum RuleParseError` (standard-library error payloads dropped). -/
inductive RuleParseError where
  | DstIllegal
  | DstNotIpv4
  | DstNotIpv6
  | DuplicateAttr (a : String)
  | InvalidAction (a : String)
  | InvalidAttr (a : String)
  | InvalidCidr (c : String)
  | InvalidCmd (c : String)
  | InvalidVersion (v : String)
  | NoAction
  | NoAttrValue (a : String)
  | NoCmd
  | NoVersion
  | ParseAddr
  | ParseBool
  | ParseInt
  | SrcIllegal
  | SrcNotIpv4
  | SrcNotIpv6
deriving DecidableEq, Repr

/-- `rsdsl_netlinklib::rule::RuleAction` (the variants the source names). -/
inductive RuleAction where
  | Unspec
  | ToTable
  | Goto
  | Nop
  | Blackhole
  | Unreachable
  | Prohibit
  | Other (a : Nat)
deriving DecidableEq, Repr

/-- `enum RuleVersion`. -/
inductive RuleVersion where
  | Both
  | Ipv4
  | Ipv6
deriving DecidableEq, Repr

/-- `struct Rule`. -/
structure Rule where
  delete : Bool
  version : RuleVersion
  invert : Bool
  fwmark : Option Nat
  dst : Option (IpAddr × Nat)
  src : Option (IpAddr × Nat)
  action : RuleAction
  table : Nat
deriving DecidableEq, Repr

/-- The local variables collected by the attribute loop of
`<Rule as FromStr>::from_str`. -/
structure RuleAttrs where
  invert : Bool := false
  fwmark : Option Nat := none
  dst : Option (IpAddr × Nat) := none
  src : Option (IpAddr × Nat) := none
  action : Option RuleAction := none
  table : Option Nat := none
deriving DecidableEq, Repr

/-- One iteration of the attribute loop of `<Rule as FromStr>::from_str`. -/
def ruleApplyAttr (st : RuleAttrs) (kv : String × String) :
    Except RuleParseError RuleAttrs :=
  match kv.1 with
  | "invert" =>
    match parseBoolStr kv.2 with
    | none => .error .ParseBool
    | some b => .ok { st with invert := b }
  | "fwmark" =>
    match parseNum (2 ^ 32) kv.2 with
    | none => .error .ParseInt
    | some m => .ok { st with fwmark := some m }
  | "dst" =>
    match splitChar '/' kv.2 with
    | [a, c] =>
      match parseIp a with
      | none => .error .ParseAddr
      | some addr =>
        match parseNum 256 c with
        | none => .error .ParseInt
        | some n => .ok { st with dst := some (addr, n) }
    | _ => .error (.InvalidCidr kv.2)
  | "src" =>
    match splitChar '/' kv.2 with
    | [a, c] =>
      match parseIp a with
      | none => .error .ParseAddr
      | some addr =>
        match parseNum 256 c with
        | none => .error .ParseInt
        | some n => .ok { st with src := some (addr, n) }
    | _ => .error (.InvalidCidr kv.2)
  | "action" =>
    match kv.2 with
    | "to_table" => .ok { st with action := some .ToTable }
    | "blackhole" => .ok { st with action := some .Blackhole }
    | "unreachable" => .ok { st with action := some .Unreachable }
    | "prohibit" => .ok { st with action := some .Prohibit }
    | a => .error (.InvalidAction a)
  | "table" =>
    match parseNum (2 ^ 32) kv.2 with
    | none => .error .ParseInt
    | some t => .ok { st with table := some t }
  | _ => .error (.InvalidAttr kv.1)

/-- The final construction step of `<Rule as FromStr>::from_str`: the
`match version` expression with fields evaluated in source order
(`delete`, `version`, `invert`, `fwmark`, `dst`, `src`, `action`, `table`). -/
def buildRule (version : RuleVersion) (delete : Bool) (st : RuleAttrs) :
    Except RuleParseError Rule :=
  match version with
  | .Both =>
    if st.dst.isSome then .error .DstIllegal
    else if st.src.isSome then .error .SrcIllegal
    else
      match st.action with
      | none => .error .NoAction
      | some act =>
        .ok ⟨delete, .Both, st.invert, st.fwmark, none, none, act, st.table.getD 0⟩
  | .Ipv4 =>
    match st.dst with
    | some (.V6 _, _) => .error .DstNotIpv4
    | _ =>
      match st.src with
      | some (.V6 _, _) => .error .SrcNotIpv4
      | _ =>
        match st.action with
        | none => .error .NoAction
        | some act =>
          .ok ⟨delete, .Ipv4, st.invert, st.fwmark, st.dst, st.src, act, st.table.getD 0⟩
  | .Ipv6 =>
    match st.dst with
    | some (.V4 _, _) => .error .DstNotIpv6
    | _ =>
      match st.src with
      | some (.V4 _, _) => .error .SrcNotIpv6
      | _ =>
        match st.action with
        | none => .error .NoAction
        | some act =>
          .ok ⟨delete, .Ipv6, st.invert, st.fwmark, st.dst, st.src, act, st.table.getD 0⟩

/-- `"rule"` / `"rule4"` / `"rule6"` version keywords. -/
def ruleVersionOf (s : String) : Option RuleVersion :=
  if s = "rule" then some .Both
  else if s = "rule4" then some .Ipv4
  else if s = "rule6" then some .Ipv6
  else none

/-- `<Rule as FromStr>::from_str`, after `split_whitespace`. -/
def Rule.from_words : List String → Except RuleParseError Rule
  | [] => .error .NoVersion
  | vstr :: rest =>
    match ruleVersionOf vstr with
    | none => .error (.InvalidVersion vstr)
    | some v =>
      match rest with
      | [] => .error .NoCmd
      | cmd :: rest2 =>
        match cmdOf cmd with
        | none => .error (.InvalidCmd cmd)
        | some delete =>
          match collectPairs RuleParseError.DuplicateAttr RuleParseError.NoAttrValue rest2 [] with
          | .error e => .error e
          | .ok pairs =>
            match pairs.foldlM ruleApplyAttr {} with
            | .error e => .error e
            | .ok st => buildRule v delete st

/-- `<Rule as FromStr>::from_str`. -/
def Rule.from_str (s : String) : Except RuleParseError Rule :=
  Rule.from_words (tokenize s)

/-- `struct Rules`. -/
structure Rules where
  rules : List Rule
deriving DecidableEq, Repr

/-- `<Rules as FromStr>::from_str`: parse every line, first error wins. -/
def Rules.from_str (s : String) : Except RuleParseError Rules :=
  (collectResults Rule.from_str (rustLines s)).map Rules.mk

/-- Modelled from the spec: dotted-quad `Display` of the external
standard-library IPv4 address type. -/
def Ipv4Addr.display (x : Ipv4Addr) : String :=
  toString x.a ++ "." ++ toString x.b ++ "." ++ toString x.c ++ "." ++ toString x.d

def hexGroupStr (n : Nat) : String :=
  String.mk (Nat.toDigits 16 n)

def Ipv6Addr.groups (x : Ipv6Addr) : List Nat :=
  [x.g1, x.g2, x.g3, x.g4, x.g5, x.g6, x.g7, x.g8]

/-- Longest run of zero groups of length at least two (start, length),
leftmost on ties: the run elided by the standard-library IPv6 `Display`. -/
def longestZeroRun (gs : List Nat) : Option (Nat × Nat) :=
  let runLenAt := fun (i : Nat) => ((gs.drop i).takeWhile (· = 0)).length
  let cands := (List.range gs.length).map (fun i => (i, runLenAt i))
  cands.foldl
    (fun best c =>
      if 2 ≤ c.2 ∧ (match best with | none => true | some b => decide (b.2 < c.2)) = true
      then some c else best)
    none

/-- Modelled from the spec: `Display` of the external standard-library IPv6
address type — lowercase hex groups joined by `:`, the longest zero run
(of length at least two) elided as `::` (IPv4-embedded special cases
omitted). -/
def Ipv6Addr.display (x : Ipv6Addr) : String :=
  let gs := x.groups
  match longestZeroRun gs with
  | none => String.intercalate ":" (gs.map hexGroupStr)
  | some (i, n) =>
    String.intercalate ":" ((gs.take i).map hexGroupStr) ++ "::" ++
      String.intercalate ":" ((gs.drop (i + n)).map hexGroupStr)

def IpAddr.display : IpAddr → String
  | .V4 a => a.display
  | .V6 a => a.display

/-- `<RouteDef as Display>::fmt`, one token per write fragment.  Note that
the output starts with the version keyword followed directly by
`dst/prefix_len`: neither the `add`/`del` command nor the `to` key is
re-serialized, and `onlink` is written as a bare flag token. -/
def RouteDef.displayWords : RouteDef → List String
  | .V4 r =>
    ["route4", r.dst.display ++ "/" ++ toString r.prefix_len]
      ++ (match r.rtr with | some g => ["via", g.display] | none => [])
      ++ (if r.on_link then ["onlink"] else [])
      ++ (match r.table with | some t => ["table", toString t] | none => [])
      ++ (match r.metric with | some m => ["metric", toString m] | none => [])
      ++ ["dev", r.link]
  | .V6 r =>
    ["route6", r.dst.display ++ "/" ++ toString r.prefix_len]
      ++ (match r.rtr with | some g => ["via", g.display] | none => [])
      ++ (if r.on_link then ["onlink"] else [])
      ++ (match r.table with | some t => ["table", toString t] | none => [])
      ++ (match r.metric with | some m => ["metric", toString m] | none => [])
      ++ ["dev", r.link]

/-- `<RouteDef as Display>::fmt` as a string (fragments joined by the single
spaces the source writes). -/
def RouteDef.display (d : RouteDef) : String :=
  String.intercalate " " d.displayWords

/-- `<Route as Display>::fmt` delegates to the definition. -/
def Route.display (r : Route) : String :=
  r.rdef.display

def Route.displayWords (r : Route) : List String :=
  r.rdef.displayWords

/-- The keyword `<Rule as Display>::fmt` writes for each action. -/
def actionWord : RuleAction → String
  | .Unspec => "unspec"
  | .ToTable => "to_table"
  | .Goto => "goto"
  | .Nop => "nop"
  | .Blackhole => "blackhole"
  | .Unreachable => "unreachable"
  | .Prohibit => "prohibit"
  | .Other a => toString a

/-- `<Rule as Display>::fmt`, one token per write fragment.  As for routes,
the `add`/`del` command is not re-serialized. -/
def Rule.displayWords (r : Rule) : List String :=
  [match r.version with
   | .Both => "rule"
   | .Ipv4 => "rule4"
   | .Ipv6 => "rule6"]
    ++ (if r.invert then ["invert", "true"] else [])
    ++ (match r.fwmark with | some f => ["fwmark", toString f] | none => [])
    ++ (match r.dst with
        | some (a, c) => ["dst", a.display ++ "/" ++ toString c]
        | none => [])
    ++ (match r.src with
        | some (a, c) => ["src", a.display ++ "/" ++ toString c]
        | none => [])
    ++ ["action", actionWord r.action]
    ++ (if r.action = RuleAction.ToTable then ["table", toString r.table] else [])

/-- `<Rule as Display>::fmt` as a string. -/
def Rule.display (r : Rule) : String :=
  String.intercalate " " r.displayWords

/-- `rsdsl_netlinklib::rule::Rule::<Ipv4Addr>`: the payload handed to the
kernel interface by `Rule::add` / `Rule::delete`. -/
structure NlRule4 where
  invert : Bool
  fwmark : Option Nat
  dst : Option (Ipv4Addr × Nat)
  src : Option (Ipv4Addr × Nat)
  action : RuleAction
  table : Nat
deriving DecidableEq, Repr

/-- `rsdsl_netlinklib::rule::Rule::<Ipv6Addr>`. -/
structure NlRule6 where
  invert : Bool
  fwmark : Option Nat
  dst : Option (Ipv6Addr × Nat)
  src : Option (Ipv6Addr × Nat)
  action : RuleAction
  table : Nat
deriving DecidableEq, Repr

/-- A kernel-interface rule operation issued by `Rule::add`/`Rule::delete`. -/
inductive NlOp where
  | rule4 (r : NlRule4)
  | rule6 (r : NlRule6)
deriving DecidableEq, Repr

/-- The `self.dst.map(|dst| if let (IpAddr::V4(addr), cidr) ... else
unreachable!())` closure of `Rule::add`/`Rule::delete`: the panicking
`unreachable!` branch is modelled as `none`. -/
def mapPrefix4 : Option (IpAddr × Nat) → Option (Option (Ipv4Addr × Nat))
  | none => some none
  | some (.V4 a, c) => some (some (a, c))
  | some (.V6 _, _) => none

/-- The IPv6 counterpart closure; `unreachable!` modelled as `none`. -/
def mapPrefix6 : Option (IpAddr × Nat) → Option (Option (Ipv6Addr × Nat))
  | none => some none
  | some (.V6 a, c) => some (some (a, c))
  | some (.V4 _, _) => none

/-- The kernel-interface payloads built by `Rule::add` (and identically by
`Rule::delete`): `none` exactly when one of the `unreachable!` branches
would panic. -/
def Rule.nlOps (r : Rule) : Option (List NlOp) :=
  match r.version with
  | .Both =>
    some [.rule4 ⟨r.invert, r.fwmark, none, none, r.action, r.table⟩,
          .rule6 ⟨r.invert, r.fwmark, none, none, r.action, r.table⟩]
  | .Ipv4 =>
    match mapPrefix4 r.dst with
    | none => none
    | some d =>
      match mapPrefix4 r.src with
      | none => none
      | some s => some [.rule4 ⟨r.invert, r.fwmark, d, s, r.action, r.table⟩]
  | .Ipv6 =>
    match mapPrefix6 r.dst with
    | none => none
    | some d =>
      match mapPrefix6 r.src with
      | none => none
      | some s => some [.rule6 ⟨r.invert, r.fwmark, d, s, r.action, r.table⟩]

/-- The Kernel Routing Interface as an oracle: whether each blocking
operation succeeds.  `linkWait` is whether `link_wait_exists` returns `Ok`. -/
structure Conn where
  delRoute : RouteDef → Bool
  addRoute : RouteDef → Bool
  linkWait : String → Bool
  delRule : Rule → Bool
  addRule : Rule → Bool

/-- One observability-channel record of `run` (a `println!` line). -/
inductive Event where
  | delRoute (r : Route) (ok : Bool)
  | waitLink (name : String) (ok : Bool)
  | addRoute (r : Route) (ok : Bool)
  | delRule (r : Rule) (ok : Bool)
  | addRule (r : Rule) (ok : Bool)
deriving DecidableEq, Repr

/-- One iteration of the route loop of `run`: delete (outcome logged either
way), wait for the link, and if the wait succeeded and the entry is not a
removal directive, add (outcome logged either way).  The Bool is `false`
exactly when `link_wait_exists` failed, which `run` propagates with `?`. -/
def runRoute (c : Conn) (r : Route) : List Event × Bool :=
  let del := Event.delRoute r (c.delRoute r.rdef)
  if c.linkWait r.rdef.link then
    if r.delete then ([del, .waitLink r.rdef.link true], true)
    else ([del, .waitLink r.rdef.link true, .addRoute r (c.addRoute r.rdef)], true)
  else ([del, .waitLink r.rdef.link false], false)

/-- The route loop of `run`: entries processed in order, aborting on a
failed link wait. -/
def runRoutes (c : Conn) : List Route → List Event × Bool
  | [] => ([], true)
  | r :: rest =>
    match runRoute c r with
    | (evs, true) =>
      match runRoutes c rest with
      | (evs2, ok2) => (evs ++ evs2, ok2)
    | (evs, false) => (evs, false)

/-- One iteration of the rule loop of `run`: delete, then add unless the
entry is a removal directive; neither outcome aborts. -/
def ruleEvents (c : Conn) (q : Rule) : List Event :=
  Event.delRule q (c.delRule q) ::
    (if q.delete then [] else [Event.addRule q (c.addRule q)])

/-- The rule loop of `run`. -/
def runRules (c : Conn) : List Rule → List Event
  | [] => []
  | q :: qs => ruleEvents c q ++ runRules c qs

/-- `enum Error` (payload of I/O errors dropped; `Setup` covers both the
connection error and any netlink error propagated out of the loops). -/
inductive Error where
  | ParseRoutes (e : RouteParseError)
  | ParseRules (e : RuleParseError)
  | ReadRoutes
  | ReadRules
  | Setup
deriving DecidableEq, Repr

/-- The environment `run` executes in: the two definition files (`none`
models a read failure) and the kernel connection (`none` models
`Connection::new` failing). -/
structure Env where
  routesFile : Option String
  rulesFile : Option String
  conn : Option Conn

/-- `fn run`, returning the observability trace on success. -/
def run (env : Env) : Except Error (List Event) :=
  match env.routesFile with
  | none => .error .ReadRoutes
  | some rt =>
    match Routes.from_str rt with
    | .error e => .error (.ParseRoutes e)
    | .ok routes =>
      match env.rulesFile with
      | none => .error .ReadRules
      | some rl =>
        match Rules.from_str rl with
        | .error e => .error (.ParseRules e)
        | .ok rules =>
          match env.conn with
          | none => .error .Setup
          | some c =>
            match runRoutes c routes.routes with
            | (evs, true) => .ok (evs ++ runRules c rules.rules)
            | (_, false) => .error .Setup

/-! ## Claims -/

/-- `/` characters in a string (the condition of the CIDR check). -/
def countSlash (s : String) : Nat :=
  s.data.countP (fun c => c = '/')

/-- C10: Parsing empty input as a route collection or a rule collection
succeeds with the empty sequence, and a run over empty definition files
issues no kernel operations. -/
theorem c10_empty_input :
    Routes.from_str "" = .ok ⟨[]⟩ ∧ Rules.from_str "" = .ok ⟨[]⟩ ∧
    ∀ c : Conn, run ⟨some "", some "", some c⟩ = .ok [] :=
  ⟨rfl, rfl, fun _ => rfl⟩

/-- C7 counterexample: a definition file consisting of one valid route line
followed by a blank line does not parse; the blank line is rejected with the
missing-version error, so definition files are not blank-insensitive. -/
theorem c7_counterexample :
    Routes.from_str "route4 add to 10.0.0.0/8 dev eth0" =
      .ok ⟨[⟨false, .V4 ⟨⟨10, 0, 0, 0⟩, 8, none, false, none, none, "eth0"⟩⟩]⟩ ∧
    Routes.from_str "route4 add to 10.0.0.0/8 dev eth0\n\n" = .error .NoVersion :=
  ⟨rfl, rfl⟩

/-- C7 (amended): a blank (empty) line itself parses to the missing-version
error, so a route definition file containing a blank line never parses
successfully, whatever else it contains. -/
theorem c7_amended_blank_line_fails (s : String) (h : "" ∈ rustLines s) :
    Route.from_str "" = .error .NoVersion ∧ ∀ v, Routes.from_str s ≠ .ok v := by
  refine ⟨rfl, fun v hv => ?_⟩
  unfold Routes.from_str at hv
  cases hc : collectResults Route.from_str (rustLines s) with
  | error e => rw [hc] at hv; cases hv
  | ok ys =>
    obtain ⟨y, hy⟩ := collectResults_ok_forall _ _ _ hc "" h
    rw [show Route.from_str "" = .error .NoVersion from rfl] at hy
    cases hy

/-- C7 amended witness at a concrete file text. -/
theorem c7_amended_blank_line_fails_witness :
    "" ∈ rustLines "route4 add to 10.0.0.0/8 dev eth0\n\n" ∧
    ∀ v, Routes.from_str "route4 add to 10.0.0.0/8 dev eth0\n\n" ≠ .ok v :=
  ⟨by decide, (c7_amended_blank_line_fails _ (by decide)).2⟩

/-- C3 counterexample: a `route4` line with no `to` attribute is rejected
with `DstNotIpv4` (the same variant used for a wrong-family destination,
displayed as "route4 with missing or non-IPv4 destination"), not with the
dedicated `NoDst` no-destination error. -/
theorem c3_counterexample :
    Route.from_str "route4 add dev eth0" = .error .DstNotIpv4 ∧
    RouteParseError.DstNotIpv4 ≠ RouteParseError.NoDst :=
  ⟨rfl, by decide⟩

/-- C3 (amended): a missing `to` attribute is rejected with the combined
`DstNotIpv4`/`DstNotIpv6` error — the same variant produced when a
destination is present but of the wrong family — rather than with the
distinct `NoDst` error. -/
theorem c3_amended_missing_to_error (d : Bool) (st : RouteAttrs) :
    (st.dst = none →
      buildRoute .Ipv4 d st = .error .DstNotIpv4 ∧
      buildRoute .Ipv6 d st = .error .DstNotIpv6) ∧
    (∀ a, st.dst = some (.V6 a) → buildRoute .Ipv4 d st = .error .DstNotIpv4) ∧
    (∀ a, st.dst = some (.V4 a) → buildRoute .Ipv6 d st = .error .DstNotIpv6) := by
  refine ⟨fun h => ⟨?_, ?_⟩, fun a h => ?_, fun a h => ?_⟩ <;>
    simp [buildRoute, h]

/-- C3 amended witness at the attribute state of `route4 add dev eth0`. -/
theorem c3_amended_missing_to_error_witness :
    ({ link := some "eth0" } : RouteAttrs).dst = none ∧
    buildRoute .Ipv4 false { link := some "eth0" } = .error .DstNotIpv4 ∧
    buildRoute .Ipv6 false { link := some "eth0" } = .error .DstNotIpv6 :=
  ⟨rfl, (c3_amended_missing_to_error false { link := some "eth0" }).1 rfl⟩

/-- A token of the form `a/b` is neither `add` nor `del`, so it is rejected
as a command keyword. -/
theorem cmdOf_slash_token (a b : String) : cmdOf (a ++ "/" ++ b) = none := by
  have hmem : '/' ∈ (a ++ "/" ++ b).data := by
    simp [String.data_append]
  have h1 : a ++ "/" ++ b ≠ "add" := by
    intro h; rw [h] at hmem; exact absurd hmem (by decide)
  have h2 : a ++ "/" ++ b ≠ "del" := by
    intro h; rw [h] at hmem; exact absurd hmem (by decide)
  simp [cmdOf, h1, h2]

/-- C4 counterexample: the valid line `route4 add to 10.0.0.0/8 dev eth0`
parses, but its re-serialization is `route4 10.0.0.0/8 dev eth0` — the
command keyword and the `to` key are not written — and re-parsing that
line fails with an invalid-command error instead of round-tripping. -/
theorem c4_counterexample :
    Route.from_str "route4 add to 10.0.0.0/8 dev eth0" =
      .ok ⟨false, .V4 ⟨⟨10, 0, 0, 0⟩, 8, none, false, none, none, "eth0"⟩⟩ ∧
    Route.display ⟨false, .V4 ⟨⟨10, 0, 0, 0⟩, 8, none, false, none, none, "eth0"⟩⟩ =
      "route4 10.0.0.0/8 dev eth0" ∧
    Route.from_str "route4 10.0.0.0/8 dev eth0" = .error (.InvalidCmd "10.0.0.0/8") :=
  ⟨rfl, rfl, rfl⟩

/-- C4 (amended): re-serialization never round-trips — the display form of
every route and every rule omits the `add`/`del` command keyword, so
re-parsing its token sequence always fails with an invalid-command error
(for routes the second token is the `dst/prefix` CIDR, for rules it is the
first attribute key). -/
theorem c4_amended_display_not_reparseable :
    (∀ r : Route, ∃ w, Route.from_words r.displayWords = .error (.InvalidCmd w)) ∧
    (∀ q : Rule, ∃ w, Rule.from_words q.displayWords = .error (.InvalidCmd w)) := by
  constructor
  · intro r
    obtain ⟨del, rd⟩ := r
    cases rd with
    | V4 r4 =>
      refine ⟨r4.dst.display ++ "/" ++ toString r4.prefix_len, ?_⟩
      simp [Route.displayWords, RouteDef.displayWords, Route.from_words,
        routeVersionOf, cmdOf_slash_token]
    | V6 r6 =>
      refine ⟨r6.dst.display ++ "/" ++ toString r6.prefix_len, ?_⟩
      simp [Route.displayWords, RouteDef.displayWords, Route.from_words,
        routeVersionOf, cmdOf_slash_token]
  · intro q
    have hver : ruleVersionOf
        (match q.version with
          | .Both => "rule" | .Ipv4 => "rule4" | .Ipv6 => "rule6") =
        some q.version := by
      cases q.version <;> rfl
    cases hinv : q.invert with
    | true =>
      refine ⟨"invert", ?_⟩
      simp [Rule.displayWords, hinv, Rule.from_words, hver, cmdOf]
    | false =>
      cases hfw : q.fwmark with
      | some f =>
        refine ⟨"fwmark", ?_⟩
        simp [Rule.displayWords, hinv, hfw, Rule.from_words, hver, cmdOf]
      | none =>
        cases hdst : q.dst with
        | some p =>
          refine ⟨"dst", ?_⟩
          simp [Rule.displayWords, hinv, hfw, hdst, Rule.from_words, hver, cmdOf]
        | none =>
          cases hsrc : q.src with
          | some p =>
            refine ⟨"src", ?_⟩
            simp [Rule.displayWords, hinv, hfw, hdst, hsrc, Rule.from_words, hver, cmdOf]
          | none =>
            refine ⟨"action", ?_⟩
            simp [Rule.displayWords, hinv, hfw, hdst, hsrc, Rule.from_words, hver, cmdOf]

/-- The `to`/`dst`/`src` CIDR split produces `countSlash + 1` pieces. -/
theorem splitChar_length (sep : Char) (s : String) :
    (splitChar sep s).length = s.data.countP (fun c => c = sep) + 1 := by
  simp [splitChar, length_splitOnPred]

/-- A `to` value without exactly one `/` makes the route attribute loop
fail with the invalid-CIDR error. -/
theorem routeApplyAttr_to_invalid (st : RouteAttrs) (value : String)
    (h : countSlash value ≠ 1) :
    routeApplyAttr st ("to", value) = .error (.InvalidCidr value) := by
  have hlen : (splitChar '/' value).length ≠ 2 := by
    rw [splitChar_length]
    simpa [countSlash] using h
  simp only [routeApplyAttr]
  rcases hsp : splitChar '/' value with _ | ⟨a, _ | ⟨c, _ | _⟩⟩ <;>
    simp_all

/-- A `dst`/`src` value without exactly one `/` makes the rule attribute
loop fail with the invalid-CIDR error. -/
theorem ruleApplyAttr_cidr_invalid (st : RuleAttrs) (value : String)
    (h : countSlash value ≠ 1) :
    ruleApplyAttr st ("dst", value) = .error (.InvalidCidr value) ∧
    ruleApplyAttr st ("src", value) = .error (.InvalidCidr value) := by
  have hlen : (splitChar '/' value).length ≠ 2 := by
    rw [splitChar_length]
    simpa [countSlash] using h
  constructor <;>
  · simp only [ruleApplyAttr]
    rcases hsp : splitChar '/' value with _ | ⟨a, _ | ⟨c, _ | _⟩⟩ <;>
      simp_all

/-- C8: a `to`, `dst` or `src` attribute value whose text contains zero `/`
characters or more than one `/` character makes the attribute loop of the
respective builder reject the line with the invalid-CIDR error, whatever
attributes follow. -/
theorem c8_invalid_cidr (value : String) (h : countSlash value ≠ 1) :
    (∀ (st : RouteAttrs) rest,
      List.foldlM routeApplyAttr st (("to", value) :: rest) =
        .error (.InvalidCidr value)) ∧
    (∀ (st : RuleAttrs) rest,
      List.foldlM ruleApplyAttr st (("dst", value) :: rest) =
        .error (.InvalidCidr value)) ∧
    (∀ (st : RuleAttrs) rest,
      List.foldlM ruleApplyAttr st (("src", value) :: rest) =
        .error (.InvalidCidr value)) := by
  refine ⟨fun st rest => ?_, fun st rest => ?_, fun st rest => ?_⟩
  · rw [List.foldlM_cons, routeApplyAttr_to_invalid st value h]; rfl
  · rw [List.foldlM_cons, (ruleApplyAttr_cidr_invalid st value h).1]; rfl
  · rw [List.foldlM_cons, (ruleApplyAttr_cidr_invalid st value h).2]; rfl

/-- C8 witness: a zero-slash `to` value and a two-slash `dst` value. -/
theorem c8_invalid_cidr_witness :
    (countSlash "10.0.0.0" ≠ 1 ∧
      List.foldlM routeApplyAttr {} [("to", "10.0.0.0")] =
        .error (.InvalidCidr "10.0.0.0")) ∧
    (countSlash "10.0.0.0/8/9" ≠ 1 ∧
      List.foldlM ruleApplyAttr {} [("dst", "10.0.0.0/8/9")] =
        .error (.InvalidCidr "10.0.0.0/8/9")) :=
  ⟨⟨by decide, (c8_invalid_cidr "10.0.0.0" (by decide)).1 {} []⟩,
   ⟨by decide, (c8_invalid_cidr "10.0.0.0/8/9" (by decide)).2.1 {} []⟩⟩

/-- C5: a `route4` attribute state whose destination or gateway is an IPv6
address is rejected with the corresponding family-mismatch error, a `rule4`
attribute state whose `dst` or `src` prefix is IPv6 likewise, and
symmetrically for `route6`/`rule6` with IPv4 addresses. -/
theorem c5_family_mismatch (d : Bool) (st : RouteAttrs) (rst : RuleAttrs) :
    (∀ a, st.dst = some (.V6 a) → buildRoute .Ipv4 d st = .error .DstNotIpv4) ∧
    (∀ a g pl, st.dst = some (.V4 a) → st.prefix_len = some pl →
      st.rtr = some (.V6 g) → buildRoute .Ipv4 d st = .error .RtrNotIpv4) ∧
    (∀ a, st.dst = some (.V4 a) → buildRoute .Ipv6 d st = .error .DstNotIpv6) ∧
    (∀ a g pl, st.dst = some (.V6 a) → st.prefix_len = some pl →
      st.rtr = some (.V4 g) → buildRoute .Ipv6 d st = .error .RtrNotIpv6) ∧
    (∀ a n, rst.dst = some (.V6 a, n) → buildRule .Ipv4 d rst = .error .DstNotIpv4) ∧
    (∀ a n, (rst.dst = none ∨ ∃ b m, rst.dst = some (.V4 b, m)) →
      rst.src = some (.V6 a, n) → buildRule .Ipv4 d rst = .error .SrcNotIpv4) ∧
    (∀ a n, rst.dst = some (.V4 a, n) → buildRule .Ipv6 d rst = .error .DstNotIpv6) ∧
    (∀ a n, (rst.dst = none ∨ ∃ b m, rst.dst = some (.V6 b, m)) →
      rst.src = some (.V4 a, n) → buildRule .Ipv6 d rst = .error .SrcNotIpv6) := by
  refine ⟨fun a h => ?_, fun a g pl h1 h2 h3 => ?_, fun a h => ?_,
    fun a g pl h1 h2 h3 => ?_, fun a n h => ?_, fun a n hd hs => ?_,
    fun a n h => ?_, fun a n hd hs => ?_⟩
  · simp [buildRoute, h]
  · simp [buildRoute, h1, h2, h3]
  · simp [buildRoute, h]
  · simp [buildRoute, h1, h2, h3]
  · simp [buildRule, h]
  · rcases hd with hd | ⟨b, m, hd⟩ <;> simp [buildRule, hd, hs]
  · simp [buildRule, h]
  · rcases hd with hd | ⟨b, m, hd⟩ <;> simp [buildRule, hd, hs]

/-- C5 witness: `route4` with IPv6 destination `2001:db8::` and `rule4`
with IPv6 source prefix. -/
theorem c5_family_mismatch_witness :
    ({ dst := some (.V6 ⟨8193, 3512, 0, 0, 0, 0, 0, 0⟩) } : RouteAttrs).dst =
      some (.V6 ⟨8193, 3512, 0, 0, 0, 0, 0, 0⟩) ∧
    buildRoute .Ipv4 false { dst := some (.V6 ⟨8193, 3512, 0, 0, 0, 0, 0, 0⟩) } =
      .error .DstNotIpv4 ∧
    buildRule .Ipv4 false
        { src := some (.V6 ⟨8193, 3512, 0, 0, 0, 0, 0, 0⟩, 32),
          action := some .Blackhole } =
      .error .SrcNotIpv4 :=
  ⟨rfl,
   (c5_family_mismatch false { dst := some (.V6 ⟨8193, 3512, 0, 0, 0, 0, 0, 0⟩) }
      {}).1 _ rfl,
   (c5_family_mismatch false {}
      { src := some (.V6 ⟨8193, 3512, 0, 0, 0, 0, 0, 0⟩, 32),
        action := some .Blackhole }).2.2.2.2.2.1 _ 32 (Or.inl rfl) rfl⟩

/-- Structure of every rule the builder accepts: the version is the one
requested, a `Both` rule carries no prefixes, and a `rule4`/`rule6` rule
carries only matching-family prefixes. -/
theorem buildRule_ok (v : RuleVersion) (del : Bool) (st : RuleAttrs) (r : Rule)
    (h : buildRule v del st = .ok r) :
    r.version = v ∧
    (v = .Both → r.dst = none ∧ r.src = none) ∧
    (v = .Ipv4 → (∀ p ∈ r.dst, p.1.isV4 = true) ∧ (∀ p ∈ r.src, p.1.isV4 = true)) ∧
    (v = .Ipv6 → (∀ p ∈ r.dst, p.1.isV6 = true) ∧ (∀ p ∈ r.src, p.1.isV6 = true)) := by
  cases v <;>
    rcases hd : st.dst with _ | ⟨a | a, n⟩ <;>
      rcases hs : st.src with _ | ⟨b | b, m⟩ <;>
        rcases ha : st.action with _ | act <;>
          simp only [buildRule, hd, hs, ha, Option.isSome_some, Option.isSome_none,
            if_true, if_false, Bool.false_eq_true, reduceCtorEq] at h <;>
          (injection h with h2; subst h2;
           exact ⟨rfl, by simp, by simp [IpAddr.isV4], by simp [IpAddr.isV6]⟩)

/-- Every successfully parsed rule comes out of the builder. -/
theorem fromWords_ok_buildRule (ws : List String) (r : Rule)
    (h : Rule.from_words ws = .ok r) :
    ∃ v del st, buildRule v del st = .ok r := by
  cases ws with
  | nil => cases h
  | cons vstr rest =>
    simp only [Rule.from_words] at h
    split at h
    · cases h
    next v hv =>
      cases rest with
      | nil => cases h
      | cons cmd rest2 =>
        simp only at h
        split at h
        · cases h
        next del hdel =>
          split at h
          · cases h
          next pairs hpairs =>
            split at h
            · cases h
            next st hst => exact ⟨v, del, st, h⟩

/-- C6: a family-agnostic `rule` line with a `dst` attribute is rejected
with the destination-illegal error, one with a `src` attribute with the
distinct source-illegal error, and consequently no successfully parsed
`Both`-family rule carries a destination or source prefix. -/
theorem c6_both_rule_rejects_dst_src (d : Bool) (st : RuleAttrs) :
    (st.dst.isSome = true → buildRule .Both d st = .error .DstIllegal) ∧
    (st.dst = none → st.src.isSome = true → buildRule .Both d st = .error .SrcIllegal) ∧
    RuleParseError.DstIllegal ≠ RuleParseError.SrcIllegal ∧
    (∀ ws r, Rule.from_words ws = .ok r → r.version = .Both →
      r.dst = none ∧ r.src = none) := by
  refine ⟨fun h => by simp [buildRule, h], fun h1 h2 => by simp [buildRule, h1, h2],
    by decide, fun ws r hok hver => ?_⟩
  obtain ⟨v, del, stw, hb⟩ := fromWords_ok_buildRule ws r hok
  obtain ⟨hv, hboth, -, -⟩ := buildRule_ok v del stw r hb
  exact hboth (by rw [← hv, hver])

/-- C6 witness: concrete `rule` attribute states with a destination prefix
and with a source prefix, and the concrete line `rule add action blackhole`. -/
theorem c6_both_rule_rejects_dst_src_witness :
    ({ dst := some (.V4 ⟨10, 0, 0, 0⟩, 8) } : RuleAttrs).dst.isSome = true ∧
    buildRule .Both false { dst := some (.V4 ⟨10, 0, 0, 0⟩, 8) } =
      .error .DstIllegal ∧
    buildRule .Both false { src := some (.V4 ⟨10, 0, 0, 0⟩, 8) } =
      .error .SrcIllegal ∧
    Rule.from_words ["rule", "add", "action", "blackhole"] =
      .ok ⟨false, .Both, false, none, none, none, .Blackhole, 0⟩ ∧
    (⟨false, .Both, false, none, none, none, .Blackhole, 0⟩ : Rule).dst = none :=
  ⟨rfl,
   (c6_both_rule_rejects_dst_src false { dst := some (.V4 ⟨10, 0, 0, 0⟩, 8) }).1 rfl,
   (c6_both_rule_rejects_dst_src false
      { src := some (.V4 ⟨10, 0, 0, 0⟩, 8) }).2.1 rfl rfl,
   rfl,
   ((c6_both_rule_rejects_dst_src false {}).2.2.2 ["rule", "add", "action", "blackhole"]
      ⟨false, .Both, false, none, none, none, .Blackhole, 0⟩ rfl rfl).1⟩

/-- A family-homogeneous prefix option always maps through the add/delete
closure without hitting the `unreachable!` branch. -/
theorem mapPrefix4_isSome (o : Option (IpAddr × Nat))
    (h : ∀ p ∈ o, p.1.isV4 = true) : (mapPrefix4 o).isSome = true := by
  rcases o with _ | ⟨a | a, n⟩
  · rfl
  · rfl
  · exact absurd (h (.V6 a, n) rfl) (by simp [IpAddr.isV4])

theorem mapPrefix6_isSome (o : Option (IpAddr × Nat))
    (h : ∀ p ∈ o, p.1.isV6 = true) : (mapPrefix6 o).isSome = true := by
  rcases o with _ | ⟨a | a, n⟩
  · rfl
  · exact absurd (h (.V4 a, n) rfl) (by simp [IpAddr.isV6])
  · rfl

/-- C9: every rule produced by the rule parser is family-consistent — its
`dst`/`src` prefixes are IPv4 when the version is `Ipv4` and IPv6 when the
version is `Ipv6` — so building the kernel-interface payloads of
`Rule::add`/`Rule::delete` never reaches the panicking `unreachable!`
branches (modelled: `nlOps` is never `none`). -/
theorem c9_parser_rules_family_safe (ws : List String) (r : Rule)
    (h : Rule.from_words ws = .ok r) :
    (r.version = .Ipv4 → (∀ p ∈ r.dst, p.1.isV4 = true) ∧
      (∀ p ∈ r.src, p.1.isV4 = true)) ∧
    (r.version = .Ipv6 → (∀ p ∈ r.dst, p.1.isV6 = true) ∧
      (∀ p ∈ r.src, p.1.isV6 = true)) ∧
    (r.nlOps).isSome = true := by
  obtain ⟨v, del, stw, hb⟩ := fromWords_ok_buildRule ws r h
  obtain ⟨hv, hboth, h4, h6⟩ := buildRule_ok v del stw r hb
  subst hv
  refine ⟨h4, h6, ?_⟩
  unfold Rule.nlOps
  cases hver : r.version with
  | Both => rfl
  | Ipv4 =>
    obtain ⟨hd4, hs4⟩ := h4 hver
    have hd := mapPrefix4_isSome r.dst hd4
    have hs := mapPrefix4_isSome r.src hs4
    cases hmd : mapPrefix4 r.dst with
    | none => rw [hmd] at hd; cases hd
    | some d =>
      cases hms : mapPrefix4 r.src with
      | none => rw [hms] at hs; cases hs
      | some s => simp
  | Ipv6 =>
    obtain ⟨hd6, hs6⟩ := h6 hver
    have hd := mapPrefix6_isSome r.dst hd6
    have hs := mapPrefix6_isSome r.src hs6
    cases hmd : mapPrefix6 r.dst with
    | none => rw [hmd] at hd; cases hd
    | some d =>
      cases hms : mapPrefix6 r.src with
      | none => rw [hms] at hs; cases hs
      | some s => simp

/-- C9 witness: the concrete parsed line `rule4 add dst 10.0.0.0/8 action
blackhole` is family-consistent and builds its payloads. -/
theorem c9_parser_rules_family_safe_witness :
    Rule.from_words ["rule4", "add", "dst", "10.0.0.0/8", "action", "blackhole"] =
      .ok ⟨false, .Ipv4, false, none, some (.V4 ⟨10, 0, 0, 0⟩, 8), none,
        .Blackhole, 0⟩ ∧
    ((⟨false, .Ipv4, false, none, some (.V4 ⟨10, 0, 0, 0⟩, 8), none,
        .Blackhole, 0⟩ : Rule).nlOps).isSome = true :=
  ⟨rfl,
   (c9_parser_rules_family_safe
      ["rule4", "add", "dst", "10.0.0.0/8", "action", "blackhole"]
      ⟨false, .Ipv4, false, none, some (.V4 ⟨10, 0, 0, 0⟩, 8), none,
        .Blackhole, 0⟩ rfl).2.2⟩

/-- C1 counterexample: both definition files read and parse, the connection
is present, and every kernel delete/add succeeds, yet the whole run aborts
with the setup error because the link-existence wait fails — `run`
propagates a `link_wait_exists` failure with `?`, so a failing link wait
does abort the reconciliation run. -/
theorem c1_counterexample :
    Routes.from_str "route4 add to 10.0.0.0/8 dev eth0" =
      .ok ⟨[⟨false, .V4 ⟨⟨10, 0, 0, 0⟩, 8, none, false, none, none, "eth0"⟩⟩]⟩ ∧
    Rules.from_str "" = .ok ⟨[]⟩ ∧
    run ⟨some "route4 add to 10.0.0.0/8 dev eth0", some "",
      some ⟨fun _ => true, fun _ => true, fun _ => false, fun _ => true, fun _ => true⟩⟩ =
      .error .Setup :=
  ⟨rfl, rfl, rfl⟩

/-- When every link wait succeeds, the route loop never aborts, whatever
the kernel answers to the delete/add operations. -/
theorem runRoutes_ok_of_linkWait (c : Conn) (hw : ∀ name, c.linkWait name = true) :
    ∀ l : List Route, (runRoutes c l).2 = true := by
  intro l
  induction l with
  | nil => rfl
  | cons r rest ih =>
    simp only [runRoutes, runRoute, hw]
    cases hrr : runRoutes c rest with
    | mk evs2 ok2 =>
      rw [hrr] at ih
      cases r.delete <;> simpa using ih

/-- C1 (amended): a delete or add rejected by the kernel interface never
aborts the reconciliation run — when the definition files read and parse
and every link wait succeeds, `run` succeeds for every behaviour of the
kernel delete/add operations; but (per the counterexample) a failing link
wait is propagated and does abort the run. -/
theorem c1_amended_no_abort (rt rl : String) (c : Conn)
    (routes : Routes) (rules : Rules)
    (hr : Routes.from_str rt = .ok routes) (hl : Rules.from_str rl = .ok rules)
    (hw : ∀ name, c.linkWait name = true) :
    ∃ evs, run ⟨some rt, some rl, some c⟩ = .ok evs := by
  have hok := runRoutes_ok_of_linkWait c hw routes.routes
  simp only [run, hr, hl]
  cases hrr : runRoutes c routes.routes with
  | mk evs ok =>
    rw [hrr] at hok
    subst hok
    exact ⟨evs ++ runRules c rules.rules, rfl⟩

/-- C1 amended witness: one route and one rule, a connection that fails
every delete and every add but has working link waits — the run still
succeeds. -/
theorem c1_amended_no_abort_witness :
    Routes.from_str "route4 add to 10.0.0.0/8 dev eth0" =
      .ok ⟨[⟨false, .V4 ⟨⟨10, 0, 0, 0⟩, 8, none, false, none, none, "eth0"⟩⟩]⟩ ∧
    Rules.from_str "rule add action blackhole" =
      .ok ⟨[⟨false, .Both, false, none, none, none, .Blackhole, 0⟩]⟩ ∧
    (∀ name, (⟨fun _ => false, fun _ => false, fun _ => true, fun _ => false,
      fun _ => false⟩ : Conn).linkWait name = true) ∧
    ∃ evs, run ⟨some "route4 add to 10.0.0.0/8 dev eth0",
      some "rule add action blackhole",
      some ⟨fun _ => false, fun _ => false, fun _ => true, fun _ => false,
        fun _ => false⟩⟩ = .ok evs :=
  ⟨rfl, rfl, fun _ => rfl,
   c1_amended_no_abort "route4 add to 10.0.0.0/8 dev eth0"
     "rule add action blackhole"
     ⟨fun _ => false, fun _ => false, fun _ => true, fun _ => false, fun _ => false⟩
     ⟨[⟨false, .V4 ⟨⟨10, 0, 0, 0⟩, 8, none, false, none, none, "eth0"⟩⟩]⟩
     ⟨[⟨false, .Both, false, none, none, none, .Blackhole, 0⟩]⟩
     rfl rfl (fun _ => rfl)⟩

/-- C2: for an entry whose link wait succeeds, the reconciler's block of
events starts with the delete attempt (so the delete precedes any add,
whatever the delete flag is), contains an add if and only if the delete
flag is false, that add carries the identical specification, and the loops
process each entry's whole block before the next entry; the same holds for
rules, whose loop has no wait. -/
theorem c2_delete_before_add (c : Conn) (r : Route) (rest : List Route)
    (q : Rule) (qs : List Rule) (h : c.linkWait r.rdef.link = true) :
    (runRoute c r).1.head? = some (.delRoute r (c.delRoute r.rdef)) ∧
    ((∃ ok, Event.addRoute r ok ∈ (runRoute c r).1) ↔ r.delete = false) ∧
    (∀ ok, Event.addRoute r ok ∈ (runRoute c r).1 → ok = c.addRoute r.rdef) ∧
    runRoutes c (r :: rest) =
      ((runRoute c r).1 ++ (runRoutes c rest).1, (runRoutes c rest).2) ∧
    (ruleEvents c q).head? = some (.delRule q (c.delRule q)) ∧
    ((∃ ok, Event.addRule q ok ∈ ruleEvents c q) ↔ q.delete = false) ∧
    (∀ ok, Event.addRule q ok ∈ ruleEvents c q → ok = c.addRule q) ∧
    runRules c (q :: qs) = ruleEvents c q ++ runRules c qs := by
  refine ⟨?_, ?_, ?_, ?_, ?_, ?_, ?_, rfl⟩
  · simp only [runRoute, h, if_true]
    cases r.delete <;> rfl
  · simp only [runRoute, h, if_true]
    cases hdel : r.delete <;> simp
  · simp only [runRoute, h, if_true]
    cases hdel : r.delete <;> intro ok hmem <;> simp_all
  · simp only [runRoutes, runRoute, h, if_true]
    cases hrr : runRoutes c rest with
    | mk evs2 ok2 => cases r.delete <;> simp
  · simp only [ruleEvents]
    rfl
  · simp only [ruleEvents]
    cases hdel : q.delete <;> simp
  · simp only [ruleEvents]
    cases hdel : q.delete <;> intro ok hmem <;> simp_all

/-- C2 witness: a concrete connection, route and rule. -/
theorem c2_delete_before_add_witness :
    (⟨fun _ => true, fun _ => true, fun _ => true, fun _ => true,
        fun _ => true⟩ : Conn).linkWait
      (⟨false, .V4 ⟨⟨10, 0, 0, 0⟩, 8, none, false, none, none, "eth0"⟩⟩ :
        Route).rdef.link = true ∧
    (runRoute
        ⟨fun _ => true, fun _ => true, fun _ => true, fun _ => true, fun _ => true⟩
        ⟨false, .V4 ⟨⟨10, 0, 0, 0⟩, 8, none, false, none, none, "eth0"⟩⟩).1.head? =
      some (.delRoute
        ⟨false, .V4 ⟨⟨10, 0, 0, 0⟩, 8, none, false, none, none, "eth0"⟩⟩ true) ∧
    ((∃ ok, Event.addRoute
        ⟨false, .V4 ⟨⟨10, 0, 0, 0⟩, 8, none, false, none, none, "eth0"⟩⟩ ok ∈
      (runRoute
        ⟨fun _ => true, fun _ => true, fun _ => true, fun _ => true, fun _ => true⟩
        ⟨false, .V4 ⟨⟨10, 0, 0, 0⟩, 8, none, false, none, none, "eth0"⟩⟩).1) ↔
      (⟨false, .V4 ⟨⟨10, 0, 0, 0⟩, 8, none, false, none, none, "eth0"⟩⟩ :
        Route).delete = false) ∧
    ((∃ ok, Event.addRule
        ⟨true, .Both, false, none, none, none, .Blackhole, 0⟩ ok ∈
      ruleEvents
        ⟨fun _ => true, fun _ => true, fun _ => true, fun _ => true, fun _ => true⟩
        ⟨true, .Both, false, none, none, none, .Blackhole, 0⟩) ↔
      (⟨true, .Both, false, none, none, none, .Blackhole, 0⟩ : Rule).delete = false) := by
  have h := c2_delete_before_add
    ⟨fun _ => true, fun _ => true, fun _ => true, fun _ => true, fun _ => true⟩
    ⟨false, .V4 ⟨⟨10, 0, 0, 0⟩, 8, none, false, none, none, "eth0"⟩⟩ []
    ⟨true, .Both, false, none, none, none, .Blackhole, 0⟩ [] rfl
  exact ⟨rfl, h.1, h.2.1, h.2.2.2.2.2.1⟩

end Rtd
